import Mathlib

/-!
# OpsPilot incident-response core: a shallow embedding

This file embeds the incident-response orchestration core of the OpsPilot
repository in Lean 4 and proves properties of it.

The embedding covers:
* the data model (`src/types`): incidents, remediation plans and actions,
  safety checks, execution results, diagnosis and verification results;
* the remediation planner and safety gate
  (`OpsPilotAgent.parseRemediationActions`, `performSafetyChecks`,
  `generateRemediationPlan` in `src/agent/opspilot`);
* the execution sequencer (`OpsPilotAgent.executeRemediation`,
  `executeAction`);
* the statistical anomaly analyzer
  (`CloudWatchService.analyzeMetricAnomalies`);
* the bounded tool-calling loop (`BedrockService.executeAgenticWorkflow`
  in `src/aws/bedrock`);
* the five-phase pipeline (`OpsPilotAgent.handleIncident`, `investigate`).

External collaborators (AWS SDK calls, the Bedrock reasoning service,
DynamoDB persistence) are modelled as explicit environments of function
parameters returning `Except` values; JavaScript numbers are modelled as
real numbers where statistics are involved and as `Nat`/`Int` where the
source only uses integral values; `Date` values are modelled as opaque
`Nat` timestamps supplied by the environment.
-/

namespace OpsPilot

/-! ## Data model (from `src/types/index.ts`) -/

/-- JS `Date` values, opaque to the core; supplied by the environment. -/
abbrev Timestamp := Nat

/-- `Incident.severity`. -/
inductive Severity where
  | critical | high | medium | low
deriving DecidableEq

/-- `Incident.resourceType`. -/
inductive ResourceType where
  | lambda | ecs | ec2 | rds
deriving DecidableEq

/-- `Incident.status` lifecycle states. -/
inductive IncidentStatus where
  | open | investigating | remediating | resolved | failed
deriving DecidableEq

/-- `Incident` (the optional `metrics`/`logs` snapshot fields are modelled
as optional lists; they are never read by the orchestration core). -/
structure Incident where
  id : String
  timestamp : Timestamp
  severity : Severity
  resourceArn : String
  resourceType : ResourceType
  description : String
  logs : Option (List String)
  status : IncidentStatus
deriving DecidableEq

/-- `RemediationAction.type`. -/
inductive ActionType where
  | update_config | restart_service | scale_resources | rollback | custom
deriving DecidableEq

/-- `RemediationAction.parameters` is a free-form JS record; the planner and
executor only ever use the `functionName`, `memorySize`, `timeout` and
`note` keys, so the record is modelled by those optional fields. -/
structure ActionParams where
  functionName : Option String
  memorySize : Option Nat
  timeout : Option Nat
  note : Option String
deriving DecidableEq

/-- `RemediationAction` (the optional `rollbackPlan` field is never set nor
read by the core and is omitted). `order` is a JS number used only through
the comparator `a.order - b.order`; it is modelled as an integer. -/
structure RemediationAction where
  id : String
  type : ActionType
  description : String
  parameters : ActionParams
  order : Int
deriving DecidableEq

/-- `SafetyCheck.type`. -/
inductive SafetyCheckType where
  | rate_limit | resource_limit | dependency_check | rollback_available
deriving DecidableEq

/-- `SafetyCheck`. -/
structure SafetyCheck where
  type : SafetyCheckType
  description : String
  passed : Bool
  details : String
deriving DecidableEq

/-- `RemediationPlan`. -/
structure RemediationPlan where
  id : String
  incidentId : String
  actions : List RemediationAction
  estimatedImpact : String
  safetyChecks : List SafetyCheck
  approvalRequired : Bool
  createdAt : Timestamp
deriving DecidableEq

/-! ## ARN parsing (`OpsPilotAgent.extractFunctionName`)

`extractFunctionName` applies the regex `/function:([^:]+)/` to the ARN and
returns the first capture, or `null` when there is no match.  The regex
scans left to right for an occurrence of the literal `function:` followed by
at least one character other than `:`; the greedy `[^:]+` then captures the
maximal run of non-`:` characters. -/

/-- One step of the left-to-right regex scan over the character list. -/
def extractFunctionNameGo : List Char → Option String
  | [] => none
  | c :: rest =>
    if "function:".toList.isPrefixOf (c :: rest) then
      let captured := ((c :: rest).drop 9).takeWhile (fun ch => ch ≠ ':')
      if captured.isEmpty then extractFunctionNameGo rest
      else some (String.mk captured)
    else extractFunctionNameGo rest

/-- `extractFunctionName(arn)`: first capture of `/function:([^:]+)/`. -/
def extractFunctionName (arn : String) : Option String :=
  extractFunctionNameGo arn.toList

/-! ## Remediation planner (`OpsPilotAgent.parseRemediationActions`,
`performSafetyChecks`, `generateRemediationPlan`)

`uuidv4()` produces fresh opaque identifiers; no property of the core
depends on their uniqueness, so identifiers are modelled by a constant. -/

/-- Stand-in for `uuidv4()`; the core never compares generated ids. -/
def uuid : String := "uuid"

/-- `text.toLowerCase()`. -/
def toLowerCase (s : String) : String :=
  String.mk (s.toList.map Char.toLower)

/-- Left-to-right scan deciding whether `needle` occurs as a contiguous
sublist of the scanned list. -/
def containsSublist (needle : List Char) : List Char → Bool
  | [] => needle.isEmpty
  | c :: rest => needle.isPrefixOf (c :: rest) || containsSublist needle rest

/-- JS `haystack.includes(needle)` (substring containment). -/
def includesSubstring (haystack needle : String) : Bool :=
  containsSublist needle.toList haystack.toList

/-- `planText.toLowerCase().includes(keyword)` as used by the planner. -/
def mentions (planText keyword : String) : Bool :=
  includesSubstring (toLowerCase planText) keyword

/-- `OpsPilotAgent.parseRemediationActions(planText, incident)`: the
deterministic keyword classifier that turns the reasoning service's
remediation narrative into concrete actions. -/
def parseRemediationActions (planText : String) (incident : Incident) :
    List RemediationAction :=
  let functionName := extractFunctionName incident.resourceArn
  let memoryActions :=
    if mentions planText "memory" || mentions planText "timeout" then
      [{ id := uuid
         type := .update_config
         description := "Increase Lambda memory and timeout"
         parameters :=
           { functionName := functionName
             memorySize := some 512
             timeout := some 30
             note := none }
         order := 1 }]
    else []
  let restartActions :=
    if mentions planText "restart" || mentions planText "redeploy" then
      [{ id := uuid
         type := .restart_service
         description := "Update function configuration to trigger restart"
         parameters :=
           { functionName := functionName
             memorySize := none
             timeout := none
             note := none }
         order := 2 }]
    else []
  let actions := memoryActions ++ restartActions
  if actions.isEmpty then
    [{ id := uuid
       type := .custom
       description := "Manual investigation required"
       parameters :=
         { functionName := none
           memorySize := none
           timeout := none
           note := some planText }
       order := 1 }]
  else actions

/-- `OpsPilotAgent.performSafetyChecks(actions, _incident)`: the safety
gate.  `rate_limit` passes iff at most 5 actions are planned; the
`rollback_available` and `resource_limit` checks are hard-coded to pass. -/
def performSafetyChecks (actions : List RemediationAction) :
    List SafetyCheck :=
  [ { type := .rate_limit
      description := "Ensure we are not making too many changes"
      passed := decide (actions.length ≤ 5)
      details := toString actions.length ++ " actions planned" },
    { type := .rollback_available
      description := "Verify rollback procedures exist"
      passed := true
      details := "Configuration changes can be reverted" },
    { type := .resource_limit
      description := "Check resource allocation is within limits"
      passed := true
      details := "All changes within AWS limits" } ]

/-- Pure core of `OpsPilotAgent.generateRemediationPlan`: assembling the
plan record from the reasoning service's narrative `planText`.  (In the
source, `planText` is obtained from `bedrock.generateRemediationPlan`; the
current Lambda configuration fetched beforehand is only interpolated into
the prompt and does not influence the assembled plan.) -/
def generateRemediationPlan (incident : Incident) (planText : String)
    (now : Timestamp) : RemediationPlan :=
  let actions := parseRemediationActions planText incident
  let safetyChecks := performSafetyChecks actions
  { id := uuid
    incidentId := incident.id
    actions := actions
    estimatedImpact := "Medium - Configuration changes"
    safetyChecks := safetyChecks
    approvalRequired := safetyChecks.any (fun check => !check.passed)
    createdAt := now }

/-! ## Execution sequencer (`OpsPilotAgent.executeRemediation`,
`executeAction`)

The AWS Lambda control-plane calls made by `executeAction`
(`LambdaService.getFunctionConfig`, `LambdaService.updateFunctionConfig`)
are external collaborators; they are modelled by an environment of
functions returning `Except` values, where `Except.error` models a thrown
exception carrying its message. -/

/-- The opaque `output` value stored in an `ExecutionResult`: either the
AWS response of `updateFunctionConfig` (opaque payload) or the literal
not-implemented record produced for unregistered action types. -/
inductive ExecOutput where
  | awsResponse (payload : String)
  | message (text : String)
deriving DecidableEq

/-- `ExecutionResult` (the optional `rollbackExecuted` field is never set
by the core and is omitted). -/
structure ExecutionResult where
  actionId : String
  success : Bool
  executedAt : Timestamp
  output : Option ExecOutput
  error : Option String
deriving DecidableEq

/-- The slice of a Lambda function configuration the core reads:
`Timeout`, `MemorySize` and `Environment?.Variables`. -/
structure FunctionConfig where
  timeout : Option Nat
  memorySize : Option Nat
  environmentVariables : Option (List (String × String))
deriving DecidableEq

/-- The configuration delta passed to
`LambdaService.updateFunctionConfig`. -/
structure ConfigUpdate where
  timeout : Option Nat
  memorySize : Option Nat
  environment : Option (List (String × String))
deriving DecidableEq

/-- Environment for the execution phase: the Lambda control plane plus the
wall clock.  `getFunctionConfig`/`updateFunctionConfig` take the
(possibly absent) `functionName` parameter of the action verbatim, as the
source passes `action.parameters.functionName` straight through. -/
structure LambdaEnv where
  getFunctionConfig : Option String → Except String FunctionConfig
  updateFunctionConfig : Option String → ConfigUpdate → Except String String
  nowIso : String
  now : Timestamp

/-- JS `env[key] = value` on a string record: overwrite in place or append.
-/
def setEnvVar (key value : String) :
    List (String × String) → List (String × String)
  | [] => [(key, value)]
  | (k, v) :: rest =>
    if k = key then (key, value) :: rest
    else (k, v) :: setEnvVar key value rest

/-- `OpsPilotAgent.executeAction(action)`: dispatch on the action type.
`update_config` and `restart_service` call the Lambda control plane; any
other type produces the not-implemented output.  Unless a call throws
(`Except.error`), the result is marked successful; a thrown error yields a
failure result carrying the error message. -/
def executeAction (env : LambdaEnv) (action : RemediationAction) :
    ExecutionResult :=
  match action.type with
  | .update_config =>
    match env.updateFunctionConfig action.parameters.functionName
        { timeout := action.parameters.timeout
          memorySize := action.parameters.memorySize
          environment := none } with
    | .ok payload =>
      { actionId := action.id, success := true, executedAt := env.now
        output := some (.awsResponse payload), error := none }
    | .error e =>
      { actionId := action.id, success := false, executedAt := env.now
        output := none, error := some e }
  | .restart_service =>
    match env.getFunctionConfig action.parameters.functionName with
    | .error e =>
      { actionId := action.id, success := false, executedAt := env.now
        output := none, error := some e }
    | .ok config =>
      let vars := setEnvVar "LAST_RESTART" env.nowIso
        (config.environmentVariables.getD [])
      match env.updateFunctionConfig action.parameters.functionName
          { timeout := none, memorySize := none, environment := some vars } with
      | .ok payload =>
        { actionId := action.id, success := true, executedAt := env.now
          output := some (.awsResponse payload), error := none }
      | .error e =>
        { actionId := action.id, success := false, executedAt := env.now
          output := none, error := some e }
  | _ =>
    { actionId := action.id, success := true, executedAt := env.now
      output := some (.message "Action type not implemented for auto-execution")
      error := none }

/-- One `dynamodb.logActionExecution` audit record (the free-form details
object is dropped; the claims only concern which executions are recorded
and with which outcome). -/
structure ActionExecRecord where
  incidentId : String
  actionId : String
  result : String
deriving DecidableEq

/-- The observable outcome of the execution phase: the returned `results`
list, the trace of actions on which `executeAction` was invoked, and the
per-action audit records. -/
structure ExecOutcome where
  results : List ExecutionResult
  attempted : List RemediationAction
  audit : List ActionExecRecord
deriving DecidableEq

/-- The audit record written for one executed action. -/
def actionRecord (env : LambdaEnv) (incidentId : String)
    (action : RemediationAction) : ActionExecRecord :=
  { incidentId := incidentId
    actionId := action.id
    result := if (executeAction env action).success then "success"
              else "failure" }

/-- The `for … of` loop body of `executeRemediation`: execute each action
in sequence, record its result and audit entry, and break after the first
failing action. -/
def runActions (env : LambdaEnv) (incidentId : String) :
    List RemediationAction → ExecOutcome
  | [] => { results := [], attempted := [], audit := [] }
  | action :: rest =>
    let result := executeAction env action
    if result.success then
      let o := runActions env incidentId rest
      { results := result :: o.results
        attempted := action :: o.attempted
        audit := actionRecord env incidentId action :: o.audit }
    else
      { results := [result]
        attempted := [action]
        audit := [actionRecord env incidentId action] }

/-- `plan.actions.sort((a, b) => a.order - b.order)`: a stable ascending
sort on `order` (modern JS `Array.prototype.sort` is stable). -/
def sortActions (actions : List RemediationAction) :
    List RemediationAction :=
  List.insertionSort (fun a b => a.order ≤ b.order) actions

/-- `OpsPilotAgent.executeRemediation(incident, plan)`: refuse to run when
approval is required, otherwise execute the actions in ascending `order`,
halting after the first failure. -/
def executeRemediation (env : LambdaEnv) (incident : Incident)
    (plan : RemediationPlan) : ExecOutcome :=
  if plan.approvalRequired then { results := [], attempted := [], audit := [] }
  else runActions env incident.id (sortActions plan.actions)

/-! ## Telemetry anomaly analyzer
(`CloudWatchService.analyzeMetricAnomalies`)

JS floating-point numbers are modelled as real numbers: the analysis is a
single-pass statistical computation (mean, population variance, square
root) whose claims are far from any floating-point boundary. -/

/-- `MetricData` (`namespace` is renamed `nameSpace`, as `namespace` is a
Lean keyword). -/
structure MetricData where
  metricName : String
  nameSpace : String
  dimensions : List (String × String)
  timestamps : List Timestamp
  values : List ℝ
  unit : String

/-- One flagged anomaly `{timestamp, value, zscore}`. -/
structure Anomaly where
  timestamp : Timestamp
  value : ℝ
  zscore : ℝ

/-- The `{hasAnomaly, anomalies}` record returned by the analyzer. -/
structure AnomalyReport where
  hasAnomaly : Bool
  anomalies : List Anomaly

/-- `values.reduce((a, b) => a + b, 0) / values.length`. -/
noncomputable def meanOf (values : List ℝ) : ℝ :=
  values.sum / values.length

/-- `values.reduce((sum, val) => sum + (val - mean) ** 2, 0) /
values.length` (population variance). -/
noncomputable def varianceOf (values : List ℝ) : ℝ :=
  (values.map (fun v => (v - meanOf values) ^ 2)).sum / values.length

/-- `Math.sqrt(variance)`. -/
noncomputable def stdDevOf (values : List ℝ) : ℝ :=
  Real.sqrt (varianceOf values)

/-- The element-wise `.map((value, index) => {timestamp, value, zscore})`
step: the z-score is `Math.abs((value - mean) / stdDev)`, defined as `0`
when the standard deviation is `0`.  (Indexing `timestamps[index]` out of
range yields `undefined` in JS; it is modelled by the default timestamp
`0`, and no claim reads timestamps.) -/
noncomputable def anomalyEntries (md : MetricData) : List Anomaly :=
  md.values.enum.map (fun p =>
    { timestamp := md.timestamps.getD p.1 0
      value := p.2
      zscore :=
        if stdDevOf md.values = 0 then 0
        else |(p.2 - meanOf md.values) / stdDevOf md.values| })

/-- The `.filter(item => item.zscore > threshold)` step. -/
noncomputable def filterAnomalies (threshold : ℝ) :
    List Anomaly → List Anomaly
  | [] => []
  | a :: rest =>
    if threshold < a.zscore then a :: filterAnomalies threshold rest
    else filterAnomalies threshold rest

/-- `CloudWatchService.analyzeMetricAnomalies(metricData, threshold)`:
fewer than 3 points means no anomaly; otherwise flag the points whose
z-score exceeds the threshold.  (The source default threshold is 2.) -/
noncomputable def analyzeMetricAnomalies (md : MetricData) (threshold : ℝ) :
    AnomalyReport :=
  if md.values.length < 3 then { hasAnomaly := false, anomalies := [] }
  else
    let anomalies := filterAnomalies threshold (anomalyEntries md)
    { hasAnomaly := decide (0 < anomalies.length), anomalies := anomalies }

/-! ## Tool-calling loop (`BedrockService.executeAgenticWorkflow`)

The external reasoning service is modelled as a function from the tool
catalog and the conversation so far to an optional list of content blocks
(`none` models a response with no `output.message` or no `content`, the two
`break` guards at the top of the loop body, which behave identically).
External nondeterminism is captured by quantifying over this function. -/

/-- The structured input of a tool invocation (`Record<string, any>` in
TS); treated as opaque key/value pairs. -/
abbrev ToolInput := List (String × String)

/-- A normalized tool-invocation request, after the loop's
`|| ''` / `|| {}` defaulting of missing fields. -/
structure ToolUse where
  toolUseId : String
  name : String
  input : ToolInput
deriving DecidableEq

/-- The output value fed back for a tool invocation.  The loop always uses
the literal mock `{ success: true, data := "Executed <name>" }`. -/
structure ToolOutput where
  success : Bool
  data : String
deriving DecidableEq

/-- The mock output `{ success: true, data: ` ++ "`Executed ${toolUse.name}`" ++ ` }`
that `executeAgenticWorkflow` fabricates instead of running a tool. -/
def mockToolOutput (name : String) : ToolOutput :=
  { success := true, data := "Executed " ++ name }

/-- A tool-invocation result `{toolUseId, content, status}` appended to the
conversation. -/
structure ToolResult where
  toolUseId : String
  content : ToolOutput
  status : String
deriving DecidableEq

/-- `Message.content`: free text, tool-invocation requests, or
tool-invocation results. -/
inductive MsgContent where
  | text (s : String)
  | toolUses (l : List ToolUse)
  | toolResults (l : List ToolResult)
deriving DecidableEq

/-- Conversation roles. -/
inductive Role where
  | user | assistant
deriving DecidableEq

/-- A conversation turn. -/
structure Message where
  role : Role
  content : MsgContent
deriving DecidableEq

/-- A raw `toolUse` block of a Bedrock response; every field may be
missing. -/
structure RawToolUse where
  toolUseId : Option String
  name : Option String
  input : Option ToolInput
deriving DecidableEq

/-- A raw content block of a Bedrock response: an optional `toolUse` part
and an optional `text` part. -/
structure ContentBlock where
  toolUse : Option RawToolUse
  text : Option String
deriving DecidableEq

/-- A declared tool specification (name, description; the JSON input
schema is opaque to the loop). -/
structure ToolSpec where
  name : String
  description : String
deriving DecidableEq

/-- The declared tool catalog sent with every request.  Note it carries
only specifications: the executable tool functions (`Tool.execute`) are
not part of it. -/
structure ToolConfiguration where
  tools : List ToolSpec
deriving DecidableEq

/-- A registered tool from `OpsPilotAgent.initializeTools`: a name, a
description and an executable function.  In the source the `execute`
closures call CloudWatch/Lambda; they are modelled as pure functions. -/
structure Tool where
  name : String
  description : String
  execute : ToolInput → ToolOutput

/-- The reasoning service: `converse` as a function of the tool catalog
and the conversation. -/
abbrev ReasoningService := ToolConfiguration → List Message →
  Option (List ContentBlock)

/-- The `for (const block of content)` pass collecting `toolUses` with the
`|| ''` / `|| {}` defaults. -/
def extractToolUses (content : List ContentBlock) : List ToolUse :=
  content.filterMap (fun block =>
    block.toolUse.map (fun tu =>
      { toolUseId := tu.toolUseId.getD ""
        name := tu.name.getD ""
        input := tu.input.getD [] }))

/-- `BedrockService.extractTextFromContent`: keep the truthy `text` blocks
(in JS an empty string is falsy and is filtered out) and join them with
newlines. -/
def extractTextFromContent (content : List ContentBlock) : String :=
  String.intercalate "\n"
    ((content.filterMap (fun block => block.text)).filter (fun t => t ≠ ""))

/-- JS `String(content)` on a message content value: a string renders as
itself; an array of plain objects renders as the comma-joined
`[object Object]` forms. -/
def jsStringOfContent : MsgContent → String
  | .text s => s
  | .toolUses l => String.intercalate "," (l.map (fun _ => "[object Object]"))
  | .toolResults l => String.intercalate "," (l.map (fun _ => "[object Object]"))

/-- One `toolCalls` record `{tool, input, output}`. -/
structure ToolCallRecord where
  tool : String
  input : ToolInput
  output : ToolOutput
deriving DecidableEq

/-- The mutable state of the `while` loop: the conversation, the
accumulated `toolCalls` records and the iteration counter. -/
structure LoopState where
  messages : List Message
  toolCalls : List ToolCallRecord
  iterations : Nat
deriving DecidableEq

/-- The `while (iterations < maxIterations)` loop of
`executeAgenticWorkflow`, with the remaining iteration budget as fuel.
Each pass increments `iterations`, sends the conversation to the service,
and either terminates (no message content, or a text-only response, which
is appended as the final assistant turn) or appends the assistant turn
holding the tool-invocation requests plus a user turn holding one mock
result per request (tagged by `toolUseId`), records the invocations in
`toolCalls`, and continues. -/
def agenticLoop (service : List Message → Option (List ContentBlock)) :
    Nat → List Message → List ToolCallRecord → Nat → LoopState
  | 0, messages, toolCalls, iterations =>
    { messages := messages, toolCalls := toolCalls, iterations := iterations }
  | fuel + 1, messages, toolCalls, iterations =>
    match service messages with
    | none =>
      { messages := messages, toolCalls := toolCalls
        iterations := iterations + 1 }
    | some content =>
      let toolUses := extractToolUses content
      if toolUses.isEmpty then
        { messages := messages ++
            [{ role := .assistant
               content := .text (extractTextFromContent content) }]
          toolCalls := toolCalls
          iterations := iterations + 1 }
      else
        agenticLoop service fuel
          (messages ++
            [{ role := .assistant, content := .toolUses toolUses },
             { role := .user
               content := .toolResults (toolUses.map (fun tu =>
                 { toolUseId := tu.toolUseId
                   content := mockToolOutput tu.name
                   status := "success" })) }])
          (toolCalls ++ toolUses.map (fun tu =>
            { tool := tu.name, input := tu.input
              output := mockToolOutput tu.name }))
          (iterations + 1)

/-- The `{finalResponse, toolCalls, iterations}` record returned by
`executeAgenticWorkflow`. -/
structure AgenticResult where
  finalResponse : String
  toolCalls : List ToolCallRecord
  iterations : Nat
deriving DecidableEq

/-- The final loop state of a run of `executeAgenticWorkflow`: the
conversation is seeded with the initial prompt as a single user turn and
the loop runs with budget `maxIterations` (source default 10). -/
def agenticLoopState (service : ReasoningService)
    (tools : ToolConfiguration) (initialPrompt : String)
    (maxIterations : Nat) : LoopState :=
  agenticLoop (service tools) maxIterations
    [{ role := .user, content := .text initialPrompt }] [] 0

/-- `BedrockService.executeAgenticWorkflow(initialPrompt, tools,
maxIterations)`: run the loop, then return `String(lastMessage.content)`
when the conversation ends with an assistant turn and the literal
`'Workflow completed'` otherwise. -/
def executeAgenticWorkflow (service : ReasoningService)
    (tools : ToolConfiguration) (initialPrompt : String)
    (maxIterations : Nat) : AgenticResult :=
  let st := agenticLoopState service tools initialPrompt maxIterations
  { finalResponse :=
      match st.messages.getLast? with
      | some m =>
        if m.role = .assistant then jsStringOfContent m.content
        else "Workflow completed"
      | none => "Workflow completed"
    toolCalls := st.toolCalls
    iterations := st.iterations }

/-! ## Five-phase pipeline (`OpsPilotAgent.handleIncident`, `investigate`,
`generateRemediationPlan`, `verify`)

External calls (CloudWatch, Bedrock, Lambda, DynamoDB persistence) are
modelled by an environment; a thrown exception is `Except.error` with its
message.  DynamoDB writes (`saveIncident`, `updateIncidentStatus`,
`logAudit`, `saveRemediationPlan`, `logActionExecution`) are modelled as
infallible appends to an observable event trace. -/

/-- A CloudWatch log entry; the core only reads `message`. -/
structure LogEntry where
  message : String
deriving DecidableEq

/-- `Record<string, MetricData>` as returned by `getLambdaMetrics`. -/
abbrev MetricsMap := List (String × MetricData)

/-- `DiagnosisResult`. -/
structure DiagnosisResult where
  rootCause : String
  confidence : ℝ
  affectedComponents : List String
  relatedMetrics : List String
  reasoning : String
  timestamp : Timestamp

/-- One named verification check. -/
structure VerCheck where
  name : String
  passed : Bool
  details : String

/-- `VerificationResult`. -/
structure VerificationResult where
  success : Bool
  timestamp : Timestamp
  checks : List VerCheck
  metricsImproved : Bool

/-- `LambdaService.checkFunctionHealth` result. -/
structure HealthStatus where
  healthy : Bool
  issues : List String

/-- `LambdaService.invokeFunction` result (the payload is not read by
`verify`). -/
structure InvokeResult where
  statusCode : Nat
  functionError : Option String

/-- Observable events of one pipeline run: persistence writes and external
calls, in execution order. -/
inductive PipelineEvent where
  | savedIncident (id : String)
  | statusUpdate (id : String) (status : IncidentStatus)
  | metricsFetched (functionName : String) (ok : Bool)
  | logsQueried (logGroup : String) (ok : Bool)
  | reasoningCall (kind : String)
  | auditLogged (action : String) (result : String)
  | configFetched (functionName : String) (ok : Bool)
  | planSaved (planId : String)
  | actionLogged (record : ActionExecRecord)
  | healthChecked (functionName : String)
  | testInvoked (functionName : String)
deriving DecidableEq

/-- The pipeline's external collaborators.  `diagnoseIncident` and
`generatePlanText` are the two reasoning-service calls;
`getLambdaMetrics`/`getLambdaMetricsVerify` distinguish the Investigate
and Verify metric windows (last hour vs. last 5 minutes). -/
structure AgentEnv where
  getLambdaMetrics : String → Except String MetricsMap
  queryLogs : String → Except String (List LogEntry)
  diagnoseIncident : String → MetricsMap → List String → Except String String
  getFunctionConfigPlan : String → Except String FunctionConfig
  generatePlanText : String → String → Option FunctionConfig →
    Except String String
  lambdaEnv : LambdaEnv
  checkFunctionHealth : String → Except String HealthStatus
  invokeTest : String → Except String InvokeResult
  getLambdaMetricsVerify : String → Except String MetricsMap
  now : Timestamp

/-- The data-gathering block of `investigate`: fetch metrics and
`ERROR`-filtered logs when the ARN names a Lambda function; any thrown
error is caught and the partial data kept (`metrics` keeps its value when
only the log query throws). -/
def gatherData (env : AgentEnv) (incident : Incident) :
    MetricsMap × List String × List PipelineEvent :=
  match extractFunctionName incident.resourceArn with
  | none => ([], [], [])
  | some f =>
    match env.getLambdaMetrics f with
    | .error _ => ([], [], [.metricsFetched f false])
    | .ok m =>
      match env.queryLogs ("/aws/lambda/" ++ f) with
      | .error _ =>
        (m, [], [.metricsFetched f true,
                 .logsQueried ("/aws/lambda/" ++ f) false])
      | .ok entries =>
        (m, entries.map (fun e => e.message),
         [.metricsFetched f true, .logsQueried ("/aws/lambda/" ++ f) true])

/-- `diagnosisText.split('\n')[0] || 'Unknown'`. -/
def firstLineOrUnknown (text : String) : String :=
  let first := (text.splitOn "\n").headD ""
  if first = "" then "Unknown" else first

/-- `OpsPilotAgent.investigate(incident)`: gather data (fault-tolerant),
then call the reasoning service for a diagnosis.  The reasoning call is
not guarded: a thrown error propagates out of `investigate`, and the
success audit entry is only written on the success path. -/
noncomputable def investigate (env : AgentEnv) (incident : Incident) :
    Except String DiagnosisResult × List PipelineEvent :=
  let g := gatherData env incident
  match env.diagnoseIncident incident.description g.1 g.2.1 with
  | .error e => (.error e, g.2.2 ++ [.reasoningCall "diagnose"])
  | .ok text =>
    (.ok { rootCause := firstLineOrUnknown text
           confidence := 0.85
           affectedComponents :=
             [(extractFunctionName incident.resourceArn).getD
                incident.resourceArn]
           relatedMetrics := g.1.map (fun p => p.1)
           reasoning := text
           timestamp := env.now },
     g.2.2 ++ [.reasoningCall "diagnose",
               .auditLogged "diagnosis_completed" "success"])

/-- `OpsPilotAgent.generateRemediationPlan(incident, diagnosis)`: fetch the
current configuration (errors caught, leaving `{}`, modelled `none`), call
the reasoning service for the narrative (a thrown error propagates), then
assemble the plan with `parseRemediationActions`/`performSafetyChecks`. -/
def generatePlanPhase (env : AgentEnv) (incident : Incident)
    (diagnosis : DiagnosisResult) :
    Except String RemediationPlan × List PipelineEvent :=
  let fetched : Option FunctionConfig × List PipelineEvent :=
    match extractFunctionName incident.resourceArn with
    | none => (none, [])
    | some f =>
      match env.getFunctionConfigPlan f with
      | .error _ => (none, [.configFetched f false])
      | .ok c => (some c, [.configFetched f true])
  match env.generatePlanText diagnosis.reasoning incident.resourceArn
      fetched.1 with
  | .error e => (.error e, fetched.2 ++ [.reasoningCall "generate_plan"])
  | .ok planText =>
    (.ok (generateRemediationPlan incident planText env.now),
     fetched.2 ++ [.reasoningCall "generate_plan"])

/-- JS truthiness of an optional string (`undefined` and `''` are falsy).
-/
def jsTruthy : Option String → Bool
  | none => false
  | some s => s ≠ ""

/-- `OpsPilotAgent.verify(incident)`: three individually fault-tolerant
checks (health, test invocation, metric improvement); overall `success` is
the conjunction of all recorded checks.  Numeric string interpolation of
the error count into `details` is elided. -/
noncomputable def verifyPhase (env : AgentEnv) (incident : Incident) :
    VerificationResult × List PipelineEvent :=
  match extractFunctionName incident.resourceArn with
  | none =>
    ({ success := true, timestamp := env.now, checks := []
       metricsImproved := false }, [])
  | some f =>
    let check1 : VerCheck :=
      match env.checkFunctionHealth f with
      | .ok h =>
        { name := "Lambda Health Check"
          passed := h.healthy
          details :=
            let joined := String.intercalate ", " h.issues
            if joined = "" then "All checks passed" else joined }
      | .error e =>
        { name := "Lambda Health Check", passed := false, details := e }
    let check2 : VerCheck :=
      match env.invokeTest f with
      | .ok r =>
        { name := "Test Invocation"
          passed := decide (r.statusCode = 200) && !(jsTruthy r.functionError)
          details :=
            match r.functionError with
            | some e => if e = "" then "Function invoked successfully" else e
            | none => "Function invoked successfully" }
      | .error e =>
        { name := "Test Invocation", passed := false, details := e }
    let step3 : VerCheck × Bool × List PipelineEvent :=
      match env.getLambdaMetricsVerify f with
      | .ok metrics =>
        let errorCount : ℝ :=
          match metrics.lookup "Errors" with
          | some md => md.values.sum
          | none => 0
        let improved := decide (errorCount = 0)
        ({ name := "Metrics Check", passed := improved
           details := "Error count" }, improved, [.metricsFetched f true])
      | .error e =>
        ({ name := "Metrics Check", passed := false, details := e },
         false, [.metricsFetched f false])
    let checks := [check1, check2, step3.1]
    ({ success := checks.all (fun c => c.passed)
       timestamp := env.now
       checks := checks
       metricsImproved := step3.2.1 },
     [.healthChecked f, .testInvoked f] ++ step3.2.2)

/-- The record returned by a successful `handleIncident` run. -/
structure PipelineResult where
  diagnosis : DiagnosisResult
  plan : RemediationPlan
  executionResults : List ExecutionResult
  verification : VerificationResult

/-- `OpsPilotAgent.handleIncident(incident)`: save the incident, mark it
`investigating`, then Investigate → Plan → Execute → Verify, finally
updating the status to `resolved` or `failed` according to verification.
A phase error (from the unguarded reasoning calls) short-circuits:
the remaining phases do not run and no further status is written. -/
noncomputable def handleIncident (env : AgentEnv) (incident : Incident) :
    Except String PipelineResult × List PipelineEvent :=
  let ev0 : List PipelineEvent :=
    [.savedIncident incident.id, .statusUpdate incident.id .investigating]
  match investigate env incident with
  | (.error e, ev1) => (.error e, ev0 ++ ev1)
  | (.ok diagnosis, ev1) =>
    match generatePlanPhase env incident diagnosis with
    | (.error e, ev2) => (.error e, ev0 ++ ev1 ++ ev2)
    | (.ok plan, ev2) =>
      let o := executeRemediation env.lambdaEnv incident plan
      let v := verifyPhase env incident
      let finalStatus : IncidentStatus :=
        if v.1.success then .resolved else .failed
      (.ok { diagnosis := diagnosis, plan := plan
             executionResults := o.results, verification := v.1 },
       ev0 ++ ev1 ++ ev2 ++
         [.planSaved plan.id, .statusUpdate incident.id .remediating] ++
         o.audit.map .actionLogged ++ v.2 ++
         [.statusUpdate incident.id finalStatus])

/-! ## Theorems -/

/-- C1: for every remediation plan assembled by the planner, the plan's
`approvalRequired` flag is `true` iff at least one `SafetyCheck` in the
plan's `safetyChecks` list has `passed = false`. -/
theorem planner_approvalRequired_iff_failed_check
    (incident : Incident) (planText : String) (now : Timestamp) :
    (generateRemediationPlan incident planText now).approvalRequired = true ↔
      ∃ check ∈ (generateRemediationPlan incident planText now).safetyChecks,
        check.passed = false := by
  simp [generateRemediationPlan, List.any_eq_true, Bool.not_eq_true']

/-- The keyword classifier emits at most two actions (one per matched
keyword group, or the single fallback action). -/
theorem parseRemediationActions_length_le_two
    (planText : String) (incident : Incident) :
    (parseRemediationActions planText incident).length ≤ 2 := by
  unfold parseRemediationActions
  cases h1 : mentions planText "memory" || mentions planText "timeout" <;>
    cases h2 : mentions planText "restart" || mentions planText "redeploy" <;>
      simp [h1, h2]

/-- C10: every plan produced by the planner has `approvalRequired = false`:
the classifier emits at most two actions, so `rate_limit` (at most 5)
always passes, and `rollback_available`/`resource_limit` are hard-coded to
pass, so the safety gate never blocks auto-execution of a generated plan.
-/
theorem planner_never_requires_approval
    (incident : Incident) (planText : String) (now : Timestamp) :
    (parseRemediationActions planText incident).length ≤ 2 ∧
    (∀ check ∈ (generateRemediationPlan incident planText now).safetyChecks,
      check.passed = true) ∧
    (generateRemediationPlan incident planText now).approvalRequired
      = false := by
  have hlen := parseRemediationActions_length_le_two planText incident
  have h5 : (parseRemediationActions planText incident).length ≤ 5 :=
    hlen.trans (by norm_num)
  refine ⟨hlen, ?_, ?_⟩
  · intro check hcheck
    simp only [generateRemediationPlan, performSafetyChecks,
      List.mem_cons, List.not_mem_nil, or_false] at hcheck
    rcases hcheck with h | h | h <;> subst h <;>
      simp [decide_eq_true_eq, h5]
  · simp [generateRemediationPlan, performSafetyChecks, List.any, h5]

/-- C2: for a plan with `approvalRequired = true`, `executeRemediation`
returns the empty result list, invokes `executeAction` on no action, and
records no per-action execution. -/
theorem executeRemediation_approval_gate (env : LambdaEnv)
    (incident : Incident) (plan : RemediationPlan)
    (h : plan.approvalRequired = true) :
    executeRemediation env incident plan =
      { results := [], attempted := [], audit := [] } := by
  simp [executeRemediation, h]

/-- A sample Lambda control-plane environment for witnesses. -/
def sampleLambdaEnv : LambdaEnv :=
  { getFunctionConfig := fun _ =>
      .ok { timeout := some 3, memorySize := some 128
            environmentVariables := none }
    updateFunctionConfig := fun _ _ => .ok "updated"
    nowIso := "2024-01-01T00:00:00Z"
    now := 0 }

/-- A sample incident for witnesses. -/
def sampleIncident : Incident :=
  { id := "inc-1"
    timestamp := 0
    severity := .high
    resourceArn := "arn:aws:lambda:us-east-1:123456789012:function:checkout"
    resourceType := .lambda
    description := "Lambda function timing out"
    logs := none
    status := .open }

/-- A plan whose safety gate demands approval. -/
def approvalPlan : RemediationPlan :=
  { id := "plan-0"
    incidentId := "inc-1"
    actions := [{ id := "A0", type := .update_config, description := "a0"
                  parameters := { functionName := some "checkout"
                                  memorySize := some 512, timeout := some 30
                                  note := none }
                  order := 1 }]
    estimatedImpact := "Medium - Configuration changes"
    safetyChecks := [{ type := .rate_limit
                       description := "Ensure we are not making too many changes"
                       passed := false, details := "6 actions planned" }]
    approvalRequired := true
    createdAt := 0 }

/-- Witness for C2 at a concrete environment, incident and plan. -/
theorem executeRemediation_approval_gate_witness :
    approvalPlan.approvalRequired = true ∧
    executeRemediation sampleLambdaEnv sampleIncident approvalPlan =
      { results := [], attempted := [], audit := [] } :=
  ⟨rfl, executeRemediation_approval_gate sampleLambdaEnv sampleIncident
    approvalPlan rfl⟩

/-- The index of the first action in a list on which `executeAction`
fails (the length of the list when every action succeeds). -/
def failIdx (env : LambdaEnv) (l : List RemediationAction) : Nat :=
  l.findIdx (fun a => !(executeAction env a).success)

/-- `runActions` executes exactly the prefix of its input up to and
including the first failing action (the whole list when none fails),
producing one result and one audit record per attempted action. -/
theorem runActions_eq_take (env : LambdaEnv) (iid : String) :
    ∀ l : List RemediationAction,
      runActions env iid l =
        { results := (l.take (failIdx env l + 1)).map (executeAction env)
          attempted := l.take (failIdx env l + 1)
          audit := (l.take (failIdx env l + 1)).map (actionRecord env iid) } := by
  intro l
  induction l with
  | nil => simp [runActions, failIdx]
  | cons a t ih =>
    by_cases h : (executeAction env a).success = true
    · have hp : (fun x => !(executeAction env x).success) a = false := by
        simp [h]
      have hun : runActions env iid (a :: t) =
          { results := executeAction env a :: (runActions env iid t).results
            attempted := a :: (runActions env iid t).attempted
            audit := actionRecord env iid a ::
              (runActions env iid t).audit } := by
        simp [runActions, h]
      rw [hun, ih]
      simp [failIdx, List.findIdx_cons, hp]
    · have hb : (executeAction env a).success = false :=
        Bool.eq_false_iff.mpr h
      have hp : (fun x => !(executeAction env x).success) a = true := by
        simp [hb]
      simp [runActions, hb, failIdx, List.findIdx_cons, hp]

/-- Every element of the prefix strictly before `List.findIdx p` falsifies
`p`. -/
theorem mem_take_findIdx_eq_false {α : Type} (p : α → Bool) :
    ∀ (l : List α) (a : α), a ∈ l.take (l.findIdx p) → p a = false := by
  intro l
  induction l with
  | nil => simp
  | cons b t ih =>
    intro a ha
    cases hp : p b with
    | true => simp [List.findIdx_cons, hp] at ha
    | false =>
      rw [List.findIdx_cons, hp] at ha
      simp only [cond_false, List.take_succ_cons, List.mem_cons] at ha
      rcases ha with rfl | ha'
      · exact hp
      · exact ih a ha'

/-- The element at index `List.findIdx p` satisfies `p` when that index is
in range. -/
theorem findIdx_get_eq_true {α : Type} (p : α → Bool) :
    ∀ (l : List α) (h : l.findIdx p < l.length),
      p (l.get ⟨l.findIdx p, h⟩) = true := by
  intro l
  induction l with
  | nil => intro h; simp at h
  | cons b t ih =>
    intro h
    cases hp : p b with
    | true =>
      have h0 : (b :: t).findIdx p = 0 := by simp [List.findIdx_cons, hp]
      simp only [List.get_eq_getElem]
      simp [h0, hp]
    | false =>
      have h1 : (b :: t).findIdx p = t.findIdx p + 1 := by
        simp [List.findIdx_cons, hp]
      have h2 : t.findIdx p < t.length := by
        have h3 := h
        rw [h1] at h3
        simpa using h3
      have hres := ih h2
      simp only [List.get_eq_getElem] at hres ⊢
      simp [h1, hp, hres]

/-- C3: for an approved plan, `executeRemediation` attempts exactly the
actions of the ascending-`order` sort of the plan's actions up to and
including the first failure — one result and one audit record per
attempted action, every attempted action before the first failure
succeeding, the action at the failure index failing, and every action
after it never attempted (the attempted list is literally the
`take (failIdx + 1)` prefix). -/
theorem executeRemediation_order_and_first_failure (env : LambdaEnv)
    (incident : Incident) (plan : RemediationPlan)
    (h : plan.approvalRequired = false) :
    executeRemediation env incident plan =
      { results := ((sortActions plan.actions).take
            (failIdx env (sortActions plan.actions) + 1)).map
            (executeAction env)
        attempted := (sortActions plan.actions).take
            (failIdx env (sortActions plan.actions) + 1)
        audit := ((sortActions plan.actions).take
            (failIdx env (sortActions plan.actions) + 1)).map
            (actionRecord env incident.id) } ∧
    List.Sorted (fun a b : RemediationAction => a.order ≤ b.order)
      (sortActions plan.actions) ∧
    (∀ a ∈ (sortActions plan.actions).take
        (failIdx env (sortActions plan.actions)),
      (executeAction env a).success = true) ∧
    (∀ hk : failIdx env (sortActions plan.actions) <
        (sortActions plan.actions).length,
      (executeAction env ((sortActions plan.actions).get
        ⟨failIdx env (sortActions plan.actions), hk⟩)).success = false) := by
  refine ⟨?_, ?_, ?_, ?_⟩
  · simp [executeRemediation, h, runActions_eq_take]
  · haveI : IsTotal RemediationAction (fun a b => a.order ≤ b.order) :=
      ⟨fun a b => le_total a.order b.order⟩
    haveI : IsTrans RemediationAction (fun a b => a.order ≤ b.order) :=
      ⟨fun _ _ _ hab hbc => le_trans hab hbc⟩
    exact List.sorted_insertionSort _ _
  · intro a ha
    have := mem_take_findIdx_eq_false
      (fun x => !(executeAction env x).success) (sortActions plan.actions)
      a ha
    simpa using this
  · intro hk
    have := findIdx_get_eq_true
      (fun x => !(executeAction env x).success) (sortActions plan.actions) hk
    simpa using this

/-- A control-plane environment whose configuration updates throw, so that
`update_config` actions fail. -/
def failingUpdateEnv : LambdaEnv :=
  { getFunctionConfig := fun _ =>
      .ok { timeout := some 30, memorySize := some 512
            environmentVariables := none }
    updateFunctionConfig := fun _ _ => .error "update failed"
    nowIso := "2024-01-01T00:00:00Z"
    now := 0 }

/-- Action A (order 1): an unregistered type, reported successful. -/
def actionA : RemediationAction :=
  { id := "A", type := .custom, description := "a"
    parameters := { functionName := none, memorySize := none
                    timeout := none, note := none }
    order := 1 }

/-- Action B (order 2): `update_config`, failing under
`failingUpdateEnv`. -/
def actionB : RemediationAction :=
  { id := "B", type := .update_config, description := "b"
    parameters := { functionName := some "checkout"
                    memorySize := some 512, timeout := some 30
                    note := none }
    order := 2 }

/-- Action C (order 3): never attempted after B fails. -/
def actionC : RemediationAction :=
  { id := "C", type := .custom, description := "c"
    parameters := { functionName := none, memorySize := none
                    timeout := none, note := none }
    order := 3 }

/-- An approved plan holding actions A, B, C. -/
def planABC : RemediationPlan :=
  { id := "plan-abc", incidentId := "inc-1"
    actions := [actionA, actionB, actionC]
    estimatedImpact := "Medium - Configuration changes"
    safetyChecks := performSafetyChecks [actionA, actionB, actionC]
    approvalRequired := false
    createdAt := 0 }

/-- Witness for C3: with actions `[A(order 1, ok), B(order 2, fails),
C(order 3, ok)]` the results are exactly A's success and B's failure, only
A and B are attempted, and C receives no result. -/
theorem executeRemediation_order_and_first_failure_witness :
    planABC.approvalRequired = false ∧
    executeRemediation failingUpdateEnv sampleIncident planABC =
      { results :=
          [{ actionId := "A", success := true, executedAt := 0
             output := some
               (.message "Action type not implemented for auto-execution")
             error := none },
           { actionId := "B", success := false, executedAt := 0
             output := none, error := some "update failed" }]
        attempted := [actionA, actionB]
        audit := [{ incidentId := "inc-1", actionId := "A"
                    result := "success" },
                  { incidentId := "inc-1", actionId := "B"
                    result := "failure" }] } := by
  refine ⟨rfl, ?_⟩
  rw [(executeRemediation_order_and_first_failure failingUpdateEnv
    sampleIncident planABC rfl).1]
  decide

/-- A response block carrying one tool-invocation request. -/
def toolRequestBlock : ContentBlock :=
  { toolUse := some { toolUseId := some "t1"
                      name := some "get_lambda_config"
                      input := some [("functionName", "checkout")] }
    text := none }

/-- A response block carrying a final plain-text answer. -/
def finalTextBlock : ContentBlock :=
  { toolUse := none, text := some "All good" }

/-- A reasoning-service stub that requests one tool call on the first
iteration (when the conversation is just the seed prompt) and returns
plain text afterwards. -/
def twoStepService : ReasoningService := fun _ msgs =>
  if msgs.length = 1 then some [toolRequestBlock] else some [finalTextBlock]

/-- A reasoning-service stub that always requests a tool call. -/
def alwaysToolService : ReasoningService := fun _ _ =>
  some [toolRequestBlock]

/-- A sample declared tool catalog. -/
def sampleTools : ToolConfiguration :=
  { tools := [{ name := "get_lambda_config"
                description := "Get Lambda function configuration" }] }

/-- The reasoning service requests at least one tool invocation on every
turn. -/
def alwaysRequestsTools (service : ReasoningService)
    (tools : ToolConfiguration) : Prop :=
  ∀ msgs : List Message, ∃ content,
    service tools msgs = some content ∧
    (extractToolUses content).isEmpty = false

/-- The loop performs at most `fuel` further iterations. -/
theorem agenticLoop_iterations_le
    (service : List Message → Option (List ContentBlock)) :
    ∀ (fuel : Nat) (msgs : List Message) (tc : List ToolCallRecord)
      (it : Nat),
      (agenticLoop service fuel msgs tc it).iterations ≤ it + fuel := by
  intro fuel
  induction fuel with
  | zero => intro msgs tc it; simp [agenticLoop]
  | succ f ih =>
    intro msgs tc it
    rw [agenticLoop]
    cases hs : service msgs with
    | none => simp
    | some content =>
      by_cases he : (extractToolUses content).isEmpty
      · simp [he]
      · simp only [he, Bool.false_eq_true, if_false]
        have := ih (msgs ++
          [{ role := .assistant, content := .toolUses (extractToolUses content) },
           { role := .user
             content := .toolResults ((extractToolUses content).map (fun tu =>
               { toolUseId := tu.toolUseId
                 content := mockToolOutput tu.name
                 status := "success" })) }])
          (tc ++ (extractToolUses content).map (fun tu =>
            { tool := tu.name, input := tu.input
              output := mockToolOutput tu.name })) (it + 1)
        omega

/-- When the service always requests a tool call, the loop spends its
whole budget. -/
theorem agenticLoop_iterations_exact
    (service : List Message → Option (List ContentBlock))
    (halways : ∀ msgs : List Message, ∃ content,
      service msgs = some content ∧
      (extractToolUses content).isEmpty = false) :
    ∀ (fuel : Nat) (msgs : List Message) (tc : List ToolCallRecord)
      (it : Nat),
      (agenticLoop service fuel msgs tc it).iterations = it + fuel := by
  intro fuel
  induction fuel with
  | zero => intro msgs tc it; simp [agenticLoop]
  | succ f ih =>
    intro msgs tc it
    obtain ⟨content, hs, he⟩ := halways msgs
    rw [agenticLoop, hs]
    simp only [he, Bool.false_eq_true, if_false]
    rw [ih]
    omega

/-- C4: the tool-calling loop performs at most `maxIterations` iterations;
a service that always requests a tool invocation drives it to exactly
`maxIterations`, not more; and the concrete two-step stub (one tool call
on iteration 1, plain text on iteration 2) terminates after exactly 2
iterations with exactly one tool invocation recorded. -/
theorem executeAgenticWorkflow_iteration_budget (service : ReasoningService)
    (tools : ToolConfiguration) (initialPrompt : String)
    (maxIterations : Nat) :
    (executeAgenticWorkflow service tools initialPrompt
      maxIterations).iterations ≤ maxIterations ∧
    (alwaysRequestsTools service tools →
      (executeAgenticWorkflow service tools initialPrompt
        maxIterations).iterations = maxIterations) ∧
    ((executeAgenticWorkflow twoStepService sampleTools "diagnose checkout"
        10).iterations = 2 ∧
      (executeAgenticWorkflow twoStepService sampleTools "diagnose checkout"
        10).toolCalls =
        [{ tool := "get_lambda_config"
           input := [("functionName", "checkout")]
           output := mockToolOutput "get_lambda_config" }]) := by
  refine ⟨?_, ?_, by decide, by decide⟩
  · have := agenticLoop_iterations_le (service tools) maxIterations
      [{ role := .user, content := .text initialPrompt }] [] 0
    simpa [executeAgenticWorkflow, agenticLoopState] using this
  · intro halways
    have := agenticLoop_iterations_exact (service tools) halways maxIterations
      [{ role := .user, content := .text initialPrompt }] [] 0
    simpa [executeAgenticWorkflow, agenticLoopState] using this

/-- Witness for C4: the always-requesting stub runs for exactly its budget
of 3 iterations. -/
theorem executeAgenticWorkflow_iteration_budget_witness :
    (executeAgenticWorkflow alwaysToolService sampleTools "p"
      3).iterations = 3 :=
  (executeAgenticWorkflow_iteration_budget alwaysToolService sampleTools
    "p" 3).2.1 (fun _ => ⟨[toolRequestBlock], rfl, by decide⟩)

/-- When the service always requests tools, the conversation built by the
loop always ends with a `user` turn (the seed prompt or the latest batch
of tool results). -/
theorem agenticLoop_last_user
    (service : List Message → Option (List ContentBlock))
    (halways : ∀ msgs : List Message, ∃ content,
      service msgs = some content ∧
      (extractToolUses content).isEmpty = false) :
    ∀ (fuel : Nat) (msgs : List Message) (tc : List ToolCallRecord)
      (it : Nat),
      (∃ c, msgs.getLast? = some { role := .user, content := c }) →
      ∃ c, (agenticLoop service fuel msgs tc it).messages.getLast? =
        some { role := .user, content := c } := by
  intro fuel
  induction fuel with
  | zero => intro msgs tc it h; simpa [agenticLoop] using h
  | succ f ih =>
    intro msgs tc it h
    obtain ⟨content, hs, he⟩ := halways msgs
    rw [agenticLoop, hs]
    simp only [he, Bool.false_eq_true, if_false]
    apply ih
    refine ⟨.toolResults ((extractToolUses content).map (fun tu =>
      { toolUseId := tu.toolUseId
        content := mockToolOutput tu.name
        status := "success" })), ?_⟩
    rw [show ∀ (a b : Message) (l : List Message),
      l ++ [a, b] = (l ++ [a]) ++ [b] from fun a b l => by
        simp]
    exact List.getLast?_concat _

/-- C6 (amended): when the reasoning service never produces a text-only
answer within the budget, `executeAgenticWorkflow` still returns normally
(the model is a total function), but the conversation then ends with the
`user` turn carrying the last batch of tool results, so `finalResponse` is
the fixed fallback string `'Workflow completed'` — not the content of the
last assistant turn. -/
theorem finalResponse_on_exhaustion (service : ReasoningService)
    (tools : ToolConfiguration) (initialPrompt : String)
    (maxIterations : Nat)
    (halways : alwaysRequestsTools service tools) :
    (executeAgenticWorkflow service tools initialPrompt
      maxIterations).finalResponse = "Workflow completed" := by
  obtain ⟨c, hc⟩ := agenticLoop_last_user (service tools) halways
    maxIterations [{ role := .user, content := .text initialPrompt }] [] 0
    ⟨.text initialPrompt, rfl⟩
  simp [executeAgenticWorkflow, agenticLoopState] at hc ⊢
  rw [hc]
  simp

/-- Witness for C6 (amended) at the concrete always-requesting stub. -/
theorem finalResponse_on_exhaustion_witness :
    (executeAgenticWorkflow alwaysToolService sampleTools "p"
      2).finalResponse = "Workflow completed" :=
  finalResponse_on_exhaustion alwaysToolService sampleTools "p" 2
    (fun _ => ⟨[toolRequestBlock], rfl, by decide⟩)

/-- The content of the last assistant turn of a conversation. -/
def lastAssistantContent (ms : List Message) : Option MsgContent :=
  ((ms.filter (fun m => decide (m.role = .assistant))).getLast?).map
    (fun m => m.content)

/-- C6 counterexample: with an always-tool-requesting stub and budget 1,
the run exhausts its budget; the last assistant turn holds the
tool-invocation requests, yet `finalResponse` is the fixed literal
`'Workflow completed'`, which is not the (stringified) content of that
assistant turn — refuting the claim that the last assistant content is
returned. -/
theorem finalResponse_exhaustion_counterexample :
    (executeAgenticWorkflow alwaysToolService sampleTools "p"
      1).finalResponse = "Workflow completed" ∧
    lastAssistantContent
      (agenticLoopState alwaysToolService sampleTools "p" 1).messages =
      some (.toolUses [{ toolUseId := "t1", name := "get_lambda_config"
                         input := [("functionName", "checkout")] }]) ∧
    jsStringOfContent
      (.toolUses [{ toolUseId := "t1", name := "get_lambda_config"
                    input := [("functionName", "checkout")] }]) ≠
      "Workflow completed" := by
  decide

/-- A registered tool in the model of `OpsPilotAgent.initializeTools`:
`get_lambda_config` returns the function's actual configuration (here a
concrete stand-in for the CloudWatch/Lambda call its closure makes). -/
def registeredLambdaConfigTool : Tool :=
  { name := "get_lambda_config"
    description := "Get Lambda function configuration"
    execute := fun _ => { success := true
                          data := "memorySize 128, timeout 3" } }

/-- C5 counterexample: in the run that requests the registered
`get_lambda_config` tool, the result fed back into the conversation
(tagged by invocation id `t1`) and the recorded `toolCalls` output are the
fabricated literal `{success: true, data: 'Executed get_lambda_config'}`,
which differs from the registered tool function's actual output on the
supplied input — the loop never invokes the registered tool. -/
theorem toolLoop_mock_result_counterexample :
    (agenticLoopState twoStepService sampleTools "p" 10).messages.getD 2
      { role := .user, content := .text "" } =
      { role := .user
        content := .toolResults
          [{ toolUseId := "t1"
             content := mockToolOutput "get_lambda_config"
             status := "success" }] } ∧
    (executeAgenticWorkflow twoStepService sampleTools "p" 10).toolCalls =
      [{ tool := "get_lambda_config"
         input := [("functionName", "checkout")]
         output := mockToolOutput "get_lambda_config" }] ∧
    mockToolOutput "get_lambda_config" ≠
      registeredLambdaConfigTool.execute [("functionName", "checkout")] := by
  decide

/-- The mock tool results the loop fabricates for a batch of requests: one
per request, in order, tagged by the request's invocation id. -/
def mockResultsFor (l : List ToolUse) : List ToolResult :=
  l.map (fun tu =>
    { toolUseId := tu.toolUseId
      content := mockToolOutput tu.name
      status := "success" })

/-- Every assistant turn carrying tool-invocation requests is immediately
followed by a user turn carrying exactly one mock success result per
request, paired by invocation id. -/
def pairedWithMock (ms : List Message) : Prop :=
  ∀ (i : Nat) (l : List ToolUse),
    ms[i]? = some { role := .assistant, content := .toolUses l } →
    ms[i + 1]? = some { role := .user
                        content := .toolResults (mockResultsFor l) }

/-- Appending a message that is not an assistant tool-request turn
preserves `pairedWithMock`. -/
theorem pairedWithMock_append_single {ms : List Message} {m : Message}
    (hpm : pairedWithMock ms)
    (hm : ∀ l : List ToolUse,
      m ≠ { role := .assistant, content := .toolUses l }) :
    pairedWithMock (ms ++ [m]) := by
  intro i l hi
  by_cases h : i < ms.length
  · rw [List.getElem?_append_left h] at hi
    have h2 := hpm i l hi
    have h3 : i + 1 < ms.length := by
      by_contra hc
      push_neg at hc
      rw [List.getElem?_eq_none hc] at h2
      exact Option.noConfusion h2
    rw [List.getElem?_append_left h3]
    exact h2
  · push_neg at h
    rw [List.getElem?_append_right h] at hi
    rcases Nat.lt_or_ge (i - ms.length) 1 with hd | hd
    · have hd0 : i - ms.length = 0 := by omega
      rw [hd0] at hi
      simp only [List.getElem?_cons_zero, Option.some.injEq] at hi
      exact absurd hi (hm l)
    · have : ([m] : List Message)[i - ms.length]? = none := by
        apply List.getElem?_eq_none
        simpa using hd
      rw [this] at hi
      exact Option.noConfusion hi

/-- Appending an assistant tool-request turn together with its mock-result
user turn preserves `pairedWithMock`. -/
theorem pairedWithMock_append_pair {ms : List Message}
    (hpm : pairedWithMock ms) (l : List ToolUse) :
    pairedWithMock (ms ++
      [{ role := .assistant, content := .toolUses l },
       { role := .user, content := .toolResults (mockResultsFor l) }]) := by
  intro i l' hi
  by_cases h : i < ms.length
  · rw [List.getElem?_append_left h] at hi
    have h2 := hpm i l' hi
    have h3 : i + 1 < ms.length := by
      by_contra hc
      push_neg at hc
      rw [List.getElem?_eq_none hc] at h2
      exact Option.noConfusion h2
    rw [List.getElem?_append_left h3]
    exact h2
  · push_neg at h
    rw [List.getElem?_append_right h] at hi
    rcases Nat.lt_or_ge (i - ms.length) 1 with hd | hd
    · have hd0 : i - ms.length = 0 := by omega
      have hieq : i = ms.length := by omega
      rw [hd0] at hi
      simp only [List.getElem?_cons_zero, Option.some.injEq] at hi
      have hl : l' = l := by
        have := congrArg Message.content hi
        simpa using this.symm
      subst hl
      rw [List.getElem?_append_right (by omega : ms.length ≤ i + 1)]
      have : i + 1 - ms.length = 1 := by omega
      rw [this]
      rfl
    · rcases Nat.lt_or_ge (i - ms.length) 2 with hd2 | hd2
      · have hd1 : i - ms.length = 1 := by omega
        rw [hd1] at hi
        simp only [List.getElem?_cons_succ, List.getElem?_cons_zero,
          Option.some.injEq] at hi
        have := congrArg Message.role hi
        simp at this
      · have : ([{ role := .assistant, content := .toolUses l },
            { role := .user, content := .toolResults (mockResultsFor l) }] :
            List Message)[i - ms.length]? = none := by
          apply List.getElem?_eq_none
          simpa using hd2
        rw [this] at hi
        exact Option.noConfusion hi

/-- The loop preserves the mock-pairing invariant of the conversation and
the mock shape of the `toolCalls` records. -/
theorem agenticLoop_paired
    (service : List Message → Option (List ContentBlock)) :
    ∀ (fuel : Nat) (msgs : List Message) (tc : List ToolCallRecord)
      (it : Nat),
      pairedWithMock msgs →
      (∀ c ∈ tc, c.output = mockToolOutput c.tool) →
      pairedWithMock (agenticLoop service fuel msgs tc it).messages ∧
      ∀ c ∈ (agenticLoop service fuel msgs tc it).toolCalls,
        c.output = mockToolOutput c.tool := by
  intro fuel
  induction fuel with
  | zero => intro msgs tc it hp ht; exact ⟨hp, ht⟩
  | succ f ih =>
    intro msgs tc it hp ht
    rw [agenticLoop]
    cases hs : service msgs with
    | none => exact ⟨hp, ht⟩
    | some content =>
      by_cases he : (extractToolUses content).isEmpty
      · simp only [he, if_true]
        refine ⟨pairedWithMock_append_single hp (fun l h => ?_), ht⟩
        have := congrArg Message.content h
        simp at this
      · simp only [he, Bool.false_eq_true, if_false]
        apply ih
        · exact pairedWithMock_append_pair hp (extractToolUses content)
        · intro c hc
          rcases List.mem_append.mp hc with h | h
          · exact ht c h
          · obtain ⟨tu, _, rfl⟩ := List.mem_map.mp h
            rfl

/-- C5 (amended): for every tool invocation requested by the reasoning
service inside the loop, the loop records the request's name and input in
`toolCalls` and feeds back into the conversation exactly one fabricated
success result per request — the literal
`{success: true, data: 'Executed <name>'}` tagged by the request's
invocation identifier — rather than executing any registered tool
function: every assistant tool-request turn is immediately followed by the
user turn holding precisely those mock results, and every recorded
`toolCalls` output is the mock of its tool name. -/
theorem toolLoop_mock_results_paired (service : ReasoningService)
    (tools : ToolConfiguration) (initialPrompt : String)
    (maxIterations : Nat) :
    pairedWithMock
      (agenticLoopState service tools initialPrompt maxIterations).messages ∧
    ∀ c ∈ (executeAgenticWorkflow service tools initialPrompt
        maxIterations).toolCalls,
      c.output = mockToolOutput c.tool := by
  have hseed : pairedWithMock
      [{ role := .user, content := .text initialPrompt }] := by
    intro i l hi
    rcases Nat.lt_or_ge i 1 with h1 | h1
    · have : i = 0 := by omega
      subst this
      simp at hi
    · rw [List.getElem?_eq_none (by simpa using h1)] at hi
      exact Option.noConfusion hi
  have := agenticLoop_paired (service tools) maxIterations
    [{ role := .user, content := .text initialPrompt }] [] 0 hseed
    (by intro c hc; simp at hc)
  exact ⟨this.1, this.2⟩

/-- Witness for C5 (amended): the pairing invariant at the concrete
two-step stub run (whose non-vacuity — an actual request/mock-result pair
at indices 1 and 2 — is exhibited by the counterexample). -/
theorem toolLoop_mock_results_paired_witness :
    pairedWithMock
      (agenticLoopState twoStepService sampleTools "p" 10).messages :=
  (toolLoop_mock_results_paired twoStepService sampleTools "p" 10).1

/-- When no entry's z-score exceeds the threshold, the filter keeps
nothing. -/
theorem filterAnomalies_eq_nil {t : ℝ} :
    ∀ {l : List Anomaly}, (∀ a ∈ l, ¬ t < a.zscore) →
      filterAnomalies t l = [] := by
  intro l
  induction l with
  | nil => intro; simp [filterAnomalies]
  | cons a rest ih =>
    intro h
    rw [filterAnomalies, if_neg (h a (by simp))]
    exact ih (fun b hb => h b (by simp [hb]))

/-- When every entry's z-score exceeds the threshold, the filter keeps
everything. -/
theorem filterAnomalies_eq_self {t : ℝ} :
    ∀ {l : List Anomaly}, (∀ a ∈ l, t < a.zscore) →
      filterAnomalies t l = l := by
  intro l
  induction l with
  | nil => intro; simp [filterAnomalies]
  | cons a rest ih =>
    intro h
    rw [filterAnomalies, if_pos (h a (by simp))]
    rw [ih (fun b hb => h b (by simp [hb]))]

/-- A list of copies of `v` sums to `length * v`. -/
theorem list_sum_const {v : ℝ} :
    ∀ {l : List ℝ}, (∀ x ∈ l, x = v) → l.sum = l.length * v := by
  intro l
  induction l with
  | nil => intro; simp
  | cons a rest ih =>
    intro h
    have ha : a = v := h a (by simp)
    rw [List.sum_cons, ha, ih (fun x hx => h x (by simp [hx])),
      List.length_cons]
    push_cast
    ring

/-- The mean of a nonempty constant list is its value. -/
theorem meanOf_const {v : ℝ} {l : List ℝ} (hne : l ≠ [])
    (h : ∀ x ∈ l, x = v) : meanOf l = v := by
  have hn : (l.length : ℝ) ≠ 0 :=
    Nat.cast_ne_zero.mpr (fun h0 => hne (List.length_eq_zero.mp h0))
  rw [meanOf, list_sum_const h]
  exact mul_div_cancel_left₀ v hn

/-- The population variance of a nonempty constant list is zero. -/
theorem varianceOf_const {v : ℝ} {l : List ℝ} (hne : l ≠ [])
    (h : ∀ x ∈ l, x = v) : varianceOf l = 0 := by
  rw [varianceOf]
  have hz : (l.map (fun x => (x - meanOf l) ^ 2)).sum = 0 := by
    apply List.sum_eq_zero
    intro x hx
    obtain ⟨y, hy, rfl⟩ := List.mem_map.mp hx
    rw [h y hy, meanOf_const hne h]
    ring
  rw [hz, zero_div]

/-- The standard deviation of a nonempty constant list is zero. -/
theorem stdDevOf_const {v : ℝ} {l : List ℝ} (hne : l ≠ [])
    (h : ∀ x ∈ l, x = v) : stdDevOf l = 0 := by
  rw [stdDevOf, varianceOf_const hne h, Real.sqrt_zero]

/-- Every anomaly entry of a constant series has z-score zero (the
division-by-zero guard takes effect). -/
theorem anomalyEntries_const_zscore {v : ℝ} {md : MetricData}
    (hne : md.values ≠ []) (h : ∀ x ∈ md.values, x = v) :
    ∀ a ∈ anomalyEntries md, a.zscore = 0 := by
  intro a ha
  obtain ⟨p, _, rfl⟩ := List.mem_map.mp ha
  simp [stdDevOf_const hne h]

/-- C8 (amended): for every series of at least 3 identical values and
every nonnegative threshold, the analyzer flags nothing and reports
`hasAnomaly = false`: the z-score is defined as `0` when the standard
deviation is `0`, so the division-by-zero branch is guarded.  (For a
negative threshold the guard value `0` itself exceeds the threshold and
every point is flagged; see the counterexample.) -/
theorem analyzeMetricAnomalies_zero_variance (md : MetricData) (t v : ℝ)
    (h3 : 3 ≤ md.values.length) (hv : ∀ x ∈ md.values, x = v)
    (ht : 0 ≤ t) :
    analyzeMetricAnomalies md t =
      { hasAnomaly := false, anomalies := [] } := by
  have hne : md.values ≠ [] := by
    intro hnil
    rw [hnil] at h3
    simp at h3
  have hfil : filterAnomalies t (anomalyEntries md) = [] := by
    apply filterAnomalies_eq_nil
    intro a ha
    rw [anomalyEntries_const_zscore hne hv a ha]
    exact not_lt.mpr ht
  simp only [analyzeMetricAnomalies]
  rw [if_neg (by omega)]
  simp [hfil]

/-- A three-point constant series. -/
noncomputable def mdConstSeries : MetricData :=
  { metricName := "Errors"
    nameSpace := "AWS/Lambda"
    dimensions := [("FunctionName", "checkout")]
    timestamps := [0, 1, 2]
    values := [5, 5, 5]
    unit := "Count" }

/-- Witness for C8 (amended) on the concrete constant series. -/
theorem analyzeMetricAnomalies_zero_variance_witness :
    analyzeMetricAnomalies mdConstSeries 2 =
      { hasAnomaly := false, anomalies := [] } := by
  apply analyzeMetricAnomalies_zero_variance mdConstSeries 2 5
  · norm_num [mdConstSeries]
  · intro x hx
    rcases List.mem_cons.mp hx with rfl | hx'
    · rfl
    · rcases List.mem_cons.mp hx' with rfl | hx''
      · rfl
      · rcases List.mem_cons.mp hx'' with rfl | hx3
        · rfl
        · simp at hx3
  · norm_num

/-- C8 counterexample: the claim quantifies over every threshold, but for
the constant series and the (negative) threshold `-1` the guarded z-score
`0` exceeds the threshold, so all three points are flagged and
`hasAnomaly = true`. -/
theorem analyzeMetricAnomalies_negative_threshold_counterexample :
    (analyzeMetricAnomalies mdConstSeries (-1)).hasAnomaly = true ∧
    (analyzeMetricAnomalies mdConstSeries (-1)).anomalies.length = 3 := by
  have hne : mdConstSeries.values ≠ [] := by
    simp [mdConstSeries]
  have hv : ∀ x ∈ mdConstSeries.values, x = (5 : ℝ) := by
    intro x hx
    rcases List.mem_cons.mp hx with rfl | hx'
    · rfl
    · rcases List.mem_cons.mp hx' with rfl | hx''
      · rfl
      · rcases List.mem_cons.mp hx'' with rfl | hx3
        · rfl
        · simp at hx3
  have hfil : filterAnomalies (-1) (anomalyEntries mdConstSeries) =
      anomalyEntries mdConstSeries := by
    apply filterAnomalies_eq_self
    intro a ha
    rw [anomalyEntries_const_zscore hne hv a ha]
    norm_num
  have hlen : (anomalyEntries mdConstSeries).length = 3 := by
    simp [anomalyEntries, mdConstSeries]
  simp only [analyzeMetricAnomalies]
  rw [if_neg (by norm_num [mdConstSeries])]
  simp [hfil, hlen]

/-- The four-point series of the spec's anomaly example and of the
repository's own unit test (`values: [1, 2, 1, 10]`). -/
noncomputable def mdOutlierSeries : MetricData :=
  { metricName := "Errors"
    nameSpace := "AWS/Lambda"
    dimensions := [("FunctionName", "test")]
    timestamps := [0, 1, 2, 3]
    values := [1, 2, 1, 10]
    unit := "Count" }

/-- C7: evaluating the code on the failing input.  For `[1, 2, 1, 10]`
with threshold 2 the population mean is `7/2` and the population variance
is `57/4`, so the z-score of the value `10` is `(13/2) / √(57/4) ≈ 1.72`,
which does not exceed 2: the analyzer flags nothing and returns
`hasAnomaly = false`, contradicting both the claim and the repository's
own unit test, which expects exactly the value `10` to be flagged. -/
theorem analyzeMetricAnomalies_1_2_1_10_no_flag :
    analyzeMetricAnomalies mdOutlierSeries 2 =
      { hasAnomaly := false, anomalies := [] } := by
  have hvals : mdOutlierSeries.values = [1, 2, 1, 10] := rfl
  have hmean : meanOf [1, 2, (1 : ℝ), 10] = 7 / 2 := by
    rw [meanOf]
    norm_num
  have hvar : varianceOf [1, 2, (1 : ℝ), 10] = 57 / 4 := by
    rw [varianceOf]
    simp only [hmean, List.map_cons, List.map_nil, List.sum_cons,
      List.sum_nil]
    norm_num
  have hstdpos : 0 < stdDevOf [1, 2, (1 : ℝ), 10] := by
    rw [stdDevOf, hvar]
    exact Real.sqrt_pos.mpr (by norm_num)
  have hsq : stdDevOf [1, 2, (1 : ℝ), 10] ^ 2 = 57 / 4 := by
    rw [stdDevOf, hvar]
    exact Real.sq_sqrt (by norm_num)
  have key : ∀ x : ℝ, |x - 7 / 2| ≤ 13 / 2 →
      ¬ 2 < |(x - 7 / 2) / stdDevOf [1, 2, (1 : ℝ), 10]| := by
    intro x hx hlt
    rw [abs_div, abs_of_pos hstdpos] at hlt
    have h2 : 2 * stdDevOf [1, 2, (1 : ℝ), 10] < |x - 7 / 2| :=
      (lt_div_iff₀ hstdpos).mp hlt
    have h3 : 2 * stdDevOf [1, 2, (1 : ℝ), 10] < 13 / 2 :=
      lt_of_lt_of_le h2 hx
    nlinarith [hsq, hstdpos, h3]
  have hent : ∀ a ∈ anomalyEntries mdOutlierSeries, ¬ 2 < a.zscore := by
    intro a ha
    rw [anomalyEntries] at ha
    obtain ⟨p, hp, rfl⟩ := List.mem_map.mp ha
    simp only [hvals] at hp ⊢
    rw [if_neg (ne_of_gt hstdpos)]
    simp only [List.enum, List.enumFrom, List.mem_cons,
      List.not_mem_nil, or_false] at hp
    simp only [hmean]
    rcases hp with rfl | rfl | rfl | rfl
    · exact key 1 (by rw [abs_le]; constructor <;> norm_num)
    · exact key 2 (by rw [abs_le]; constructor <;> norm_num)
    · exact key 1 (by rw [abs_le]; constructor <;> norm_num)
    · exact key 10 (by rw [abs_le]; constructor <;> norm_num)
  have hfil : filterAnomalies 2 (anomalyEntries mdOutlierSeries) = [] :=
    filterAnomalies_eq_nil hent
  simp only [analyzeMetricAnomalies]
  rw [if_neg (by simp [hvals])]
  simp [hfil]

/-- The data-gathering block emits only metric-fetch and log-query events.
-/
theorem gatherData_events (env : AgentEnv) (incident : Incident) :
    ∀ ev ∈ (gatherData env incident).2.2,
      (∃ f r, ev = .metricsFetched f r) ∨ ∃ g r, ev = .logsQueried g r := by
  cases hfn : extractFunctionName incident.resourceArn with
  | none =>
    intro ev hev
    simp only [gatherData, hfn] at hev
    simp at hev
  | some f =>
    cases hm : env.getLambdaMetrics f with
    | error err =>
      intro ev hev
      simp only [gatherData, hfn, hm] at hev
      simp at hev
      subst hev
      exact Or.inl ⟨f, false, rfl⟩
    | ok m =>
      cases hq : env.queryLogs ("/aws/lambda/" ++ f) with
      | error err =>
        intro ev hev
        simp only [gatherData, hfn, hm, hq] at hev
        simp at hev
        rcases hev with rfl | rfl
        · exact Or.inl ⟨f, true, rfl⟩
        · exact Or.inr ⟨"/aws/lambda/" ++ f, false, rfl⟩
      | ok entries =>
        intro ev hev
        simp only [gatherData, hfn, hm, hq] at hev
        simp at hev
        rcases hev with rfl | rfl
        · exact Or.inl ⟨f, true, rfl⟩
        · exact Or.inr ⟨"/aws/lambda/" ++ f, true, rfl⟩

/-- C9 (amended): when every diagnosis call of the reasoning service
errors, `handleIncident` propagates that error to its caller and halts the
pipeline — the trace is exactly the incident save, the `investigating`
status update, the fault-tolerant gathering events and the failed
reasoning call, so no planning, execution or verification is performed —
but no `failed` status is written: the incident is left in
`investigating`. -/
theorem handleIncident_diagnosis_error_propagates (env : AgentEnv)
    (incident : Incident) (e : String)
    (h : ∀ d m l, env.diagnoseIncident d m l = .error e) :
    (handleIncident env incident).1 = .error e ∧
    (handleIncident env incident).2 =
      [.savedIncident incident.id,
       .statusUpdate incident.id .investigating] ++
        (gatherData env incident).2.2 ++ [.reasoningCall "diagnose"] ∧
    PipelineEvent.statusUpdate incident.id .failed ∉
      (handleIncident env incident).2 := by
  have hinv : investigate env incident =
      (.error e, (gatherData env incident).2.2 ++
        [.reasoningCall "diagnose"]) := by
    rw [investigate, h]
  have htrace : handleIncident env incident =
      (.error e,
       [.savedIncident incident.id,
        .statusUpdate incident.id .investigating] ++
         ((gatherData env incident).2.2 ++ [.reasoningCall "diagnose"])) := by
    rw [handleIncident, hinv]
  refine ⟨by rw [htrace], by rw [htrace]; simp, ?_⟩
  rw [htrace]
  intro hmem
  simp only [List.mem_append, List.mem_cons, List.not_mem_nil,
    or_false, List.mem_singleton] at hmem
  rcases hmem with (hc | hc) | hc | hc
  · exact PipelineEvent.noConfusion hc
  · have := congrArg (fun ev => match ev with
      | PipelineEvent.statusUpdate _ s => s
      | _ => IncidentStatus.open) hc
    simp at this
  · rcases gatherData_events env incident _ hc with ⟨f, r, hev⟩ | ⟨g, r, hev⟩
    · exact PipelineEvent.noConfusion hev
    · exact PipelineEvent.noConfusion hev
  · exact PipelineEvent.noConfusion hc

/-- An environment whose reasoning-service diagnosis call always throws.
-/
noncomputable def diagFailEnv : AgentEnv :=
  { getLambdaMetrics := fun _ => .ok []
    queryLogs := fun _ => .ok []
    diagnoseIncident := fun _ _ _ => .error "Bedrock unavailable"
    getFunctionConfigPlan := fun _ =>
      .ok { timeout := some 3, memorySize := some 128
            environmentVariables := none }
    generatePlanText := fun _ _ _ => .ok "increase memory"
    lambdaEnv := sampleLambdaEnv
    checkFunctionHealth := fun _ => .ok { healthy := true, issues := [] }
    invokeTest := fun _ => .ok { statusCode := 200, functionError := none }
    getLambdaMetricsVerify := fun _ => .ok []
    now := 0 }

/-- C9 counterexample: on a concrete incident whose diagnosis call errors,
`handleIncident` returns the error and its full trace is the incident
save, the `investigating` status update, the two gathering calls and the
failed reasoning call — the status update to `failed` required by the
claim never occurs (nor does any planning, execution or verification
event). -/
theorem handleIncident_diagnosis_error_counterexample :
    handleIncident diagFailEnv sampleIncident =
      (.error "Bedrock unavailable",
       [.savedIncident "inc-1", .statusUpdate "inc-1" .investigating,
        .metricsFetched "checkout" true,
        .logsQueried "/aws/lambda/checkout" true,
        .reasoningCall "diagnose"]) ∧
    PipelineEvent.statusUpdate "inc-1" .failed ∉
      ([.savedIncident "inc-1", .statusUpdate "inc-1" .investigating,
        .metricsFetched "checkout" true,
        .logsQueried "/aws/lambda/checkout" true,
        .reasoningCall "diagnose"] : List PipelineEvent) := by
  constructor
  · rfl
  · decide

/-- Witness for C9 (amended) at the concrete failing environment. -/
theorem handleIncident_diagnosis_error_propagates_witness :
    (handleIncident diagFailEnv sampleIncident).1 =
      .error "Bedrock unavailable" ∧
    PipelineEvent.statusUpdate "inc-1" .failed ∉
      (handleIncident diagFailEnv sampleIncident).2 := by
  have h := handleIncident_diagnosis_error_propagates diagFailEnv
    sampleIncident "Bedrock unavailable" (fun _ _ _ => rfl)
  exact ⟨h.1, h.2.2⟩

end OpsPilot
